import Mathlib

/-!
# Foreman override values and smart class parameters

A shallow embedding of the Terraform provider sources

* `foreman/api/overridevalue.go`
* `foreman/api/smartclassparameter.go`
* `foreman/resource_foreman_override_value.go`
* `foreman/data_source_foreman_override_value.go`

Go pointers to structs become values, `error` results become `Except`,
a run-time panic is an explicit outcome, and the remote system is a state
threaded through the transport.
-/

set_option autoImplicit false

namespace Foreman

/-! ## Go runtime pieces the sources rely on -/

/-- Go `error` value, identified by its message. -/
structure Error where
  message : String
  deriving DecidableEq, Repr

/-- Go `strconv.Itoa`: the decimal rendering of an `int`, with a leading
minus sign for negative numbers. -/
def Itoa (n : Int) : String :=
  match n with
  | Int.ofNat m => Nat.repr m
  | Int.negSucc m => "-" ++ Nat.repr (m + 1)

/-- Operand of a `fmt.Sprintf` call: the sources pass `int` and `string`
operands only. -/
inductive FmtArg where
  | int (n : Int)
  | string (s : String)
  deriving DecidableEq, Repr

/-- Go `fmt` rendering of one operand under one verb, for the two verbs the
sources use.  `%d` renders an `int` in decimal and `%s` renders a `string`
as is; an operand of the wrong type is rendered as `%!verb(type=value)`. -/
def fmtVerb (verb : Char) (a : FmtArg) : String :=
  match a with
  | FmtArg.int n =>
      if verb = 'd' ∨ verb = 'v' then Itoa n
      else "%!" ++ String.singleton verb ++ "(int=" ++ Itoa n ++ ")"
  | FmtArg.string s =>
      if verb = 's' ∨ verb = 'v' then s
      else "%!" ++ String.singleton verb ++ "(string=" ++ s ++ ")"

/-- Go `fmt` rendering of operands left over when the format is used up:
`%!(EXTRA type=value, type=value)`. -/
def fmtExtra (args : List FmtArg) : String :=
  "%!(EXTRA " ++
    String.intercalate ", "
      (args.map fun a =>
        match a with
        | FmtArg.int n => "int=" ++ Itoa n
        | FmtArg.string s => "string=" ++ s) ++ ")"

/-- Scanner of `fmt.Sprintf` over the characters of the format. -/
def SprintfAux : List Char → List FmtArg → String
  | [], [] => ""
  | [], a :: args => fmtExtra (a :: args)
  | ['%'], _ => "%!(NOVERB)"
  | '%' :: '%' :: rest, args => "%" ++ SprintfAux rest args
  | '%' :: verb :: rest, [] =>
      "%!" ++ String.singleton verb ++ "(MISSING)" ++ SprintfAux rest []
  | '%' :: verb :: rest, a :: args => fmtVerb verb a ++ SprintfAux rest args
  | c :: rest, args => String.singleton c ++ SprintfAux rest args

/-- Go `fmt.Sprintf` for formats built from literal text, `%d`, `%s` and
`%%`. -/
def Sprintf (format : String) (args : List FmtArg) : String :=
  SprintfAux format.toList args

/-! ## The attribute bag (`schema.ResourceData`) -/

/-- Value types of the schema (`schema.TypeString`, `schema.TypeBool`). -/
inductive ValueType where
  | TypeString
  | TypeBool
  deriving DecidableEq, Repr

/-- Dynamically typed attribute value, the `interface{}` handed out by the
attribute bag. -/
inductive AttrValue where
  | string (s : String)
  | bool (b : Bool)
  deriving DecidableEq, Repr

namespace AttrValue

/-- Schema type of a value. -/
def type : AttrValue → ValueType
  | string _ => ValueType.TypeString
  | bool _ => ValueType.TypeBool

/-- Zero value of a schema type. -/
def zero : ValueType → AttrValue
  | ValueType.TypeString => string ""
  | ValueType.TypeBool => bool false

/-- Go type assertion `attr.(string)`; `none` stands for the run-time
panic of a failed assertion. -/
def assertString : AttrValue → Option String
  | string s => some s
  | bool _ => none

/-- Go type assertion `attr.(bool)`; `none` stands for the run-time panic of
a failed assertion. -/
def assertBool : AttrValue → Option Bool
  | bool b => some b
  | string _ => none

end AttrValue

/-- Attribute bag of the host runtime: the identity string and the stored
attribute values by key. -/
structure ResourceData where
  id : String
  attrs : String → Option AttrValue

namespace ResourceData

/-- Accessor `d.Id()`. -/
def Id (d : ResourceData) : String := d.id

/-- Mutator `d.SetId(v)`. -/
def SetId (d : ResourceData) (v : String) : ResourceData :=
  { d with id := v }

/-- Mutator `d.Set(key, value)`: the stored value of `key` becomes `value`,
every other key keeps its value. -/
def Set (d : ResourceData) (key : String) (value : AttrValue) : ResourceData :=
  { d with attrs := fun k => if k = key then some value else d.attrs k }

/-- Accessor `d.GetOk(key)`: the value of `key` together with `ok`, where
`ok` holds when the key has been set to a value other than the zero value of
its type.  The sources use the value under `ok` only, so the result is `some`
exactly when `ok` holds. -/
def GetOk (d : ResourceData) (key : String) : Option AttrValue :=
  match d.attrs key with
  | some v => if v = AttrValue.zero v.type then none else some v
  | none => none

end ResourceData

/-- Name of the computed documentation attribute (`autodoc.MetaAttribute`). -/
def MetaAttribute : String := "__meta__"

/-- Schema of the override value resource: the `Schema` map of
`resourceForemanOverrideValue`. -/
def resourceForemanOverrideValueSchema : List (String × ValueType) :=
  [ (MetaAttribute, ValueType.TypeBool),
    ("smart_class_parameter_id", ValueType.TypeString),
    ("match", ValueType.TypeString),
    ("value", ValueType.TypeString),
    ("omit", ValueType.TypeBool) ]

/-- Schema type of a key, if the schema declares the key. -/
def schemaType (key : String) : Option ValueType :=
  (resourceForemanOverrideValueSchema.find? fun p => p.1 = key).map Prod.snd

/-- Accessor `d.Get(key)` under the override value schema: the stored value,
or the zero value of the key's type when the key is not set; `none` for a key
the schema does not declare. -/
def ResourceData.Get (d : ResourceData) (key : String) : Option AttrValue :=
  match schemaType key with
  | some t => some ((d.attrs key).getD (AttrValue.zero t))
  | none => none

/-- The bag holds, under every key of the schema that is set, a value of the
type the schema declares for it (what the host runtime guarantees). -/
def ResourceData.WellTyped (d : ResourceData) : Prop :=
  ∀ p ∈ resourceForemanOverrideValueSchema,
    (d.attrs p.1).all (fun v => decide (v.type = p.2)) = true

instance ResourceData.decidableWellTyped (d : ResourceData) : Decidable d.WellTyped := by
  unfold ResourceData.WellTyped
  infer_instance

/-- The stored string of a key, empty when the key is not set to a string. -/
def ResourceData.storedString (d : ResourceData) (key : String) : String :=
  match d.attrs key with
  | some (AttrValue.string v) => v
  | _ => ""

/-- The stored flag of a key, false when the key is not set to a flag. -/
def ResourceData.storedBool (d : ResourceData) (key : String) : Bool :=
  match d.attrs key with
  | some (AttrValue.bool v) => v
  | _ => false

/-- The attribute keys of an override value that the adapter recognizes. -/
def recognizedKeys : List String :=
  ["smart_class_parameter_id", "match", "value", "omit"]

/-! ## JSON values and HTTP requests -/

/-- JSON document, standing for the bytes `encoding/json` produces and
consumes.  Numbers are the integers the models carry. -/
inductive JSONValue where
  | null
  | bool (b : Bool)
  | number (n : Int)
  | string (s : String)
  | array (items : List JSONValue)
  | object (members : List (String × JSONValue))
  deriving Repr

/-- Go `%T` of a generically decoded JSON value. -/
def JSONValue.typeName : JSONValue → String
  | JSONValue.null => "<nil>"
  | JSONValue.bool _ => "bool"
  | JSONValue.number _ => "float64"
  | JSONValue.string _ => "string"
  | JSONValue.array _ => "[]interface \x7b\x7d"
  | JSONValue.object _ => "map[string]interface \x7b\x7d"

/-- Top-level member names of a JSON object (empty for any other value). -/
def JSONValue.keys : JSONValue → List String
  | JSONValue.object members => members.map Prod.fst
  | _ => []

/-- Member of a JSON object by name, the first one if the name repeats. -/
def JSONValue.member (j : JSONValue) (key : String) : Option JSONValue :=
  match j with
  | JSONValue.object members => (members.find? fun p => p.1 = key).map Prod.snd
  | _ => none

/-- Go `url.Values`: the query parameters of a request, each key with its
list of values. -/
abbrev Values := List (String × List String)

/-- Go `url.Values.Set`: the values of `key` are replaced by the single
value `value`; other keys are untouched. -/
def Values.Set : Values → String → String → Values
  | [], key, value => [(key, [value])]
  | (k, vs) :: rest, key, value =>
      if k = key then (key, [value]) :: rest.filter (fun p => p.1 ≠ key)
      else (k, vs) :: Values.Set rest key value

/-- Go `url.Values.Get`: the first value of `key`, or the empty string when
the key has no value. -/
def Values.Get : Values → String → String
  | [], _ => ""
  | (k, vs) :: rest, key =>
      if k = key then vs.headD "" else Values.Get rest key

/-- Constant `http.MethodGet`. -/
def MethodGet : String := "GET"
/-- Constant `http.MethodPost`. -/
def MethodPost : String := "POST"
/-- Constant `http.MethodPut`. -/
def MethodPut : String := "PUT"
/-- Constant `http.MethodDelete`. -/
def MethodDelete : String := "DELETE"

/-- The parts of an `http.Request` the sources determine: method, endpoint
below the API root, body and query parameters (`req.URL.Query()`, written
back through `req.URL.RawQuery`). -/
structure Request where
  Method : String
  Endpoint : String
  Body : Option JSONValue
  Query : Values
  deriving Repr

/-! ## API models -/

/-- Modelled from the spec: the base object `ForemanObject` is declared
outside the sources.  It carries the integer identity every entity has and
the name-like attribute the search filter is built from; these are the two
members the sources read and write. -/
structure ForemanObject where
  Id : Int := 0
  Name : String := ""
  deriving DecidableEq, Repr

/-- Go `json.Marshal` members of the embedded base object. -/
def ForemanObject.members (o : ForemanObject) : List (String × JSONValue) :=
  [("id", JSONValue.number o.Id), ("name", JSONValue.string o.Name)]

/-- API model `ForemanOverrideValue`; the defaults are the Go zero values. -/
structure ForemanOverrideValue extends ForemanObject where
  SmartClassParameterID : String := ""
  Match : String := ""
  Value : String := ""
  Omit : Bool := false
  deriving DecidableEq, Repr

/-- Go `json.Marshal` of a `ForemanOverrideValue`: the members of the
embedded object, then the declared fields under their tags (the untagged
field under its Go name). -/
def ForemanOverrideValue.marshal (t : ForemanOverrideValue) : JSONValue :=
  JSONValue.object
    (t.toForemanObject.members ++
      [ ("SmartClassParameterID", JSONValue.string t.SmartClassParameterID),
        ("match", JSONValue.string t.Match),
        ("value", JSONValue.string t.Value),
        ("omit", JSONValue.bool t.Omit) ])

/-- API model `ForemanSmartClassOverrideValue`. -/
structure ForemanSmartClassOverrideValue where
  Match : String := ""
  Value : String := ""
  Omit : Bool := false
  deriving DecidableEq, Repr

/-- Go `json.Marshal` of a `ForemanSmartClassOverrideValue`. -/
def ForemanSmartClassOverrideValue.marshal
    (v : ForemanSmartClassOverrideValue) : JSONValue :=
  JSONValue.object
    [ ("match", JSONValue.string v.Match),
      ("value", JSONValue.string v.Value),
      ("omit", JSONValue.bool v.Omit) ]

/-- API model `ForemanSmartClassParameter`; the defaults are the Go zero
values (a nil slice and an empty slice are not told apart). -/
structure ForemanSmartClassParameter extends ForemanObject where
  HostID : Int := 0
  HostGroupID : Int := 0
  EnvironmentID : Int := 0
  ParameterID : Int := 0
  Override : Bool := false
  Description : String := ""
  DefaultValue : String := ""
  HiddenValue : Bool := false
  Omit : Bool := false
  Path : String := ""
  ValidatorType : String := ""
  ValidatorRule : String := ""
  OverrideValues : List ForemanSmartClassOverrideValue := []
  OverrideValueOrder : String := ""
  ParameterType : String := ""
  Required : Bool := false
  MergeOverrides : Bool := false
  MergeDefault : Bool := false
  AvoidDuplicates : Bool := false
  deriving DecidableEq, Repr

/-- Go `json.Marshal` of a `ForemanSmartClassParameter`. -/
def ForemanSmartClassParameter.marshal (d : ForemanSmartClassParameter) : JSONValue :=
  JSONValue.object
    (d.toForemanObject.members ++
      [ ("HostID", JSONValue.number d.HostID),
        ("HostGroupID", JSONValue.number d.HostGroupID),
        ("EnvironmentID", JSONValue.number d.EnvironmentID),
        ("ParameterID", JSONValue.number d.ParameterID),
        ("override", JSONValue.bool d.Override),
        ("description", JSONValue.string d.Description),
        ("default_value", JSONValue.string d.DefaultValue),
        ("hidden_value", JSONValue.bool d.HiddenValue),
        ("omit", JSONValue.bool d.Omit),
        ("path", JSONValue.string d.Path),
        ("validator_type", JSONValue.string d.ValidatorType),
        ("validator_rule", JSONValue.string d.ValidatorRule),
        ("override_values",
          JSONValue.array (d.OverrideValues.map ForemanSmartClassOverrideValue.marshal)),
        ("override_value_order", JSONValue.string d.OverrideValueOrder),
        ("parameter_type", JSONValue.string d.ParameterType),
        ("required", JSONValue.bool d.Required),
        ("merge_overrides", JSONValue.bool d.MergeOverrides),
        ("merge_default", JSONValue.bool d.MergeDefault),
        ("avoid_duplicates", JSONValue.bool d.AvoidDuplicates) ])

/-- Element of the polymorphic result list (`interface{}`): a generically
decoded JSON value, or one of the two API models boxed by the query
functions. -/
inductive AnyResult where
  | generic (j : JSONValue)
  | overrideValue (v : ForemanOverrideValue)
  | smartClassParameter (p : ForemanSmartClassParameter)
  deriving Repr

/-- Go `%T` of a result element. -/
def AnyResult.typeName : AnyResult → String
  | AnyResult.generic j => j.typeName
  | AnyResult.overrideValue _ => "api.ForemanOverrideValue"
  | AnyResult.smartClassParameter _ => "api.ForemanSmartClassParameter"

/-- Go `json.Marshal` of a result element. -/
def AnyResult.marshal : AnyResult → JSONValue
  | AnyResult.generic j => j
  | AnyResult.overrideValue v => v.marshal
  | AnyResult.smartClassParameter p => p.marshal

/-- Modelled from the spec: the response envelope `QueryResponse` is declared
outside the sources; it contains at least `subtotal` (count) and `results`
(heterogeneous list).  `Subtotal` is a Go integer, compared by the sources
with `== 0` and `> 1`. -/
structure QueryResponse where
  Subtotal : Int := 0
  Results : List AnyResult := []
  deriving Repr

/-! ## The HTTP client wrapper (external collaborator) -/

/-- Client of the remote API together with the pieces of the `api` package
that live outside the sources.  The remote system is a state `σ` that every
exchange may change.

* `newRequestError`: the failure of `NewRequest`, if any, for a method and an
  endpoint;
* `SendAndParse...`: `SendAndParse(req, &target)` for each target type the
  sources decode into (`nil` for the body-less delete): the decoded reply or
  the transport, HTTP or decoding error, and the remote state afterwards;
* `unmarshal...`: `json.Unmarshal` of the re-encoded result list into a typed
  slice;
* `apiEndpoint`: the method `apiEndpoint()` of the parameter model, giving the
  resource-kind segment and the parent ID. -/
structure Client (σ : Type) where
  newRequestError : String → String → Option Error
  SendAndParseOverrideValue : Request → σ → Except Error ForemanOverrideValue × σ
  SendAndParseParameter : Request → σ → Except Error ForemanSmartClassParameter × σ
  SendAndParseQuery : Request → σ → Except Error QueryResponse × σ
  SendAndParseNil : Request → σ → Option Error × σ
  unmarshalOverrideValues : JSONValue → Except Error (List ForemanOverrideValue)
  unmarshalParameters : JSONValue → Except Error (List ForemanSmartClassParameter)
  apiEndpoint : ForemanSmartClassParameter → String × Int

/-- Modelled from the spec: `NewRequest` is a method of the HTTP client wrapper,
outside the sources ("builds authenticated requests").  The request carries the
method, endpoint and body it was asked for and no query parameter yet. -/
def Client.NewRequest {σ : Type} (c : Client σ) (method endpoint : String)
    (body : Option JSONValue) : Except Error Request :=
  match c.newRequestError method endpoint with
  | some reqErr => Except.error reqErr
  | none => Except.ok { Method := method, Endpoint := endpoint, Body := body, Query := [] }

/-- Modelled from the spec: `WrapJSON` is a method of the HTTP client wrapper,
outside the sources ("serializes the model under a named wrapper key"): a
top-level JSON object whose single member, named `name`, is the encoded
item. -/
def WrapJSON (name : String) (item : JSONValue) : Except Error JSONValue :=
  Except.ok (JSONValue.object [(name, item)])

/-! ## `foreman/api/overridevalue.go` -/

/-- Constant `OverrideValueEndpointPrefix`. -/
def OverrideValueEndpointPrefix : String := "smart_class_parameters/%d/override_values"

/-- Request built by `CreateOverrideValue` (the function up to `SendAndParse`). -/
def CreateOverrideValueRequest {σ : Type} (c : Client σ) (t : ForemanOverrideValue) :
    Except Error Request :=
  let reqEndpoint := Sprintf OverrideValueEndpointPrefix [FmtArg.string t.SmartClassParameterID]
  match WrapJSON "override_value" t.marshal with
  | Except.error jsonEncErr => Except.error jsonEncErr
  | Except.ok tJSONBytes => c.NewRequest MethodPost reqEndpoint (some tJSONBytes)

/-- Function `CreateOverrideValue`. -/
def CreateOverrideValue {σ : Type} (c : Client σ) (t : ForemanOverrideValue) (s : σ) :
    Except Error ForemanOverrideValue × σ :=
  match CreateOverrideValueRequest c t with
  | Except.error e => (Except.error e, s)
  | Except.ok req => c.SendAndParseOverrideValue req s

/-- Request built by `ReadOverrideValue`.  The source declares the single
argument `id` and reads `t.SmartClassParameterID` from an undeclared `t`; the
model is the one its caller passes first. -/
def ReadOverrideValueRequest {σ : Type} (c : Client σ) (t : ForemanOverrideValue) (id : Int) :
    Except Error Request :=
  let reqEndpoint :=
    Sprintf (OverrideValueEndpointPrefix ++ "/%d") [FmtArg.string t.SmartClassParameterID, FmtArg.int id]
  c.NewRequest MethodGet reqEndpoint none

/-- Function `ReadOverrideValue`. -/
def ReadOverrideValue {σ : Type} (c : Client σ) (t : ForemanOverrideValue) (id : Int) (s : σ) :
    Except Error ForemanOverrideValue × σ :=
  match ReadOverrideValueRequest c t id with
  | Except.error e => (Except.error e, s)
  | Except.ok req => c.SendAndParseOverrideValue req s

/-- Request built by `UpdateOverrideValue`.  The source declares the single
argument `t` and reads an undeclared `id`; it is the second argument its
caller passes. -/
def UpdateOverrideValueRequest {σ : Type} (c : Client σ) (t : ForemanOverrideValue) (id : Int) :
    Except Error Request :=
  let reqEndpoint :=
    Sprintf (OverrideValueEndpointPrefix ++ "/%d") [FmtArg.string t.SmartClassParameterID, FmtArg.int id]
  match WrapJSON "ptable" t.marshal with
  | Except.error jsonEncErr => Except.error jsonEncErr
  | Except.ok tJSONBytes => c.NewRequest MethodPut reqEndpoint (some tJSONBytes)

/-- Function `UpdateOverrideValue`. -/
def UpdateOverrideValue {σ : Type} (c : Client σ) (t : ForemanOverrideValue) (id : Int) (s : σ) :
    Except Error ForemanOverrideValue × σ :=
  match UpdateOverrideValueRequest c t id with
  | Except.error e => (Except.error e, s)
  | Except.ok req => c.SendAndParseOverrideValue req s

/-- Request built by `DeleteOverrideValue` (same remark as for
`ReadOverrideValueRequest`). -/
def DeleteOverrideValueRequest {σ : Type} (c : Client σ) (t : ForemanOverrideValue) (id : Int) :
    Except Error Request :=
  let reqEndpoint :=
    Sprintf (OverrideValueEndpointPrefix ++ "/%d") [FmtArg.string t.SmartClassParameterID, FmtArg.int id]
  c.NewRequest MethodDelete reqEndpoint none

/-- Function `DeleteOverrideValue`: the error, if any. -/
def DeleteOverrideValue {σ : Type} (c : Client σ) (t : ForemanOverrideValue) (id : Int) (s : σ) :
    Option Error × σ :=
  match DeleteOverrideValueRequest c t id with
  | Except.error reqErr => (some reqErr, s)
  | Except.ok req => c.SendAndParseNil req s

/-- Request built by `QueryOverrideValue` (the function up to
`SendAndParse`): the search filter is set on the query parameters of the new
request. -/
def QueryOverrideValueRequest {σ : Type} (c : Client σ) (t : ForemanOverrideValue) :
    Except Error Request :=
  let reqEndpoint := Sprintf "/%s/%d" [FmtArg.string OverrideValueEndpointPrefix, FmtArg.int t.Id]
  match c.NewRequest MethodGet reqEndpoint none with
  | Except.error reqErr => Except.error reqErr
  | Except.ok req =>
      let reqQuery := req.Query
      let name := "\"" ++ t.Name ++ "\""
      let reqQuery := Values.Set reqQuery "search" ("name=" ++ name)
      Except.ok { req with Query := reqQuery }

/-- Function `QueryOverrideValue`.  The generic results are re-encoded
(`json.Marshal` of decoded JSON does not fail), decoded into a typed slice and
boxed again.  A Go caller also receives the response value next to an error;
the callers in the sources drop it. -/
def QueryOverrideValue {σ : Type} (c : Client σ) (t : ForemanOverrideValue) (s : σ) :
    Except Error QueryResponse × σ :=
  match QueryOverrideValueRequest c t with
  | Except.error reqErr => (Except.error reqErr, s)
  | Except.ok req =>
      match c.SendAndParseQuery req s with
      | (Except.error sendErr, s1) => (Except.error sendErr, s1)
      | (Except.ok queryResponse, s1) =>
          let resultsBytes := JSONValue.array (queryResponse.Results.map AnyResult.marshal)
          match c.unmarshalOverrideValues resultsBytes with
          | Except.error jsonDecErr => (Except.error jsonDecErr, s1)
          | Except.ok results =>
              let iArr := results.map AnyResult.overrideValue
              (Except.ok { queryResponse with Results := iArr }, s1)

/-! ## `foreman/api/smartclassparameter.go` -/

/-- Constant `ParameterEndpointPrefix`. -/
def ParameterEndpointPrefix : String := "/%s/%d/parameters"

/-- Request built by `ReadParameter`. -/
def ReadParameterRequest {σ : Type} (c : Client σ) (d : ForemanSmartClassParameter) (id : Int) :
    Except Error Request :=
  let (selEndA, selEndB) := c.apiEndpoint d
  let reqEndpoint :=
    Sprintf (ParameterEndpointPrefix ++ "/%d") [FmtArg.string selEndA, FmtArg.int selEndB, FmtArg.int id]
  c.NewRequest MethodGet reqEndpoint none

/-- Function `ReadParameter`.  After decoding the reply into `readParameter`
the source assigns `d.Id` and `d.Parameter` and returns `d`; the model type
declares no field `Parameter`, so of the declared fields only `Id` is
assigned. -/
def ReadParameter {σ : Type} (c : Client σ) (d : ForemanSmartClassParameter) (id : Int) (s : σ) :
    Except Error ForemanSmartClassParameter × σ :=
  match ReadParameterRequest c d id with
  | Except.error reqErr => (Except.error reqErr, s)
  | Except.ok req =>
      match c.SendAndParseParameter req s with
      | (Except.error sendErr, s1) => (Except.error sendErr, s1)
      | (Except.ok readParameter, s1) => (Except.ok { d with Id := readParameter.Id }, s1)

/-- Request built by `UpdateParameter`: the body is `json.Marshal(d)`. -/
def UpdateParameterRequest {σ : Type} (c : Client σ) (d : ForemanSmartClassParameter) (id : Int) :
    Except Error Request :=
  let (selEndA, selEndB) := c.apiEndpoint d
  let reqEndpoint :=
    Sprintf (ParameterEndpointPrefix ++ "/%d") [FmtArg.string selEndA, FmtArg.int selEndB, FmtArg.int id]
  let parameterJSONBytes := d.marshal
  c.NewRequest MethodPut reqEndpoint (some parameterJSONBytes)

/-- Function `UpdateParameter` (same remark on `d.Parameter` as for
`ReadParameter`). -/
def UpdateParameter {σ : Type} (c : Client σ) (d : ForemanSmartClassParameter) (id : Int) (s : σ) :
    Except Error ForemanSmartClassParameter × σ :=
  match UpdateParameterRequest c d id with
  | Except.error reqErr => (Except.error reqErr, s)
  | Except.ok req =>
      match c.SendAndParseParameter req s with
      | (Except.error sendErr, s1) => (Except.error sendErr, s1)
      | (Except.ok updatedParameter, s1) => (Except.ok { d with Id := updatedParameter.Id }, s1)

/-- Request built by `DeleteParameter`. -/
def DeleteParameterRequest {σ : Type} (c : Client σ) (d : ForemanSmartClassParameter) (id : Int) :
    Except Error Request :=
  let (selEndA, selEndB) := c.apiEndpoint d
  let reqEndpoint :=
    Sprintf (ParameterEndpointPrefix ++ "/%d") [FmtArg.string selEndA, FmtArg.int selEndB, FmtArg.int id]
  c.NewRequest MethodDelete reqEndpoint none

/-- Function `DeleteParameter`: the error, if any. -/
def DeleteParameter {σ : Type} (c : Client σ) (d : ForemanSmartClassParameter) (id : Int) (s : σ) :
    Option Error × σ :=
  match DeleteParameterRequest c d id with
  | Except.error reqErr => (some reqErr, s)
  | Except.ok req => c.SendAndParseNil req s

/-- Request built by `QueryParameter` (the function up to `SendAndParse`). -/
def QueryParameterRequest {σ : Type} (c : Client σ) (d : ForemanSmartClassParameter) :
    Except Error Request :=
  let reqEndpoint := Sprintf "/%s" [FmtArg.string ParameterEndpointPrefix]
  match c.NewRequest MethodGet reqEndpoint none with
  | Except.error reqErr => Except.error reqErr
  | Except.ok req =>
      let reqQuery := req.Query
      let name := "\"" ++ d.Name ++ "\""
      let reqQuery := Values.Set reqQuery "search" ("name=" ++ name)
      Except.ok { req with Query := reqQuery }

/-- Function `QueryParameter`. -/
def QueryParameter {σ : Type} (c : Client σ) (d : ForemanSmartClassParameter) (s : σ) :
    Except Error QueryResponse × σ :=
  match QueryParameterRequest c d with
  | Except.error reqErr => (Except.error reqErr, s)
  | Except.ok req =>
      match c.SendAndParseQuery req s with
      | (Except.error sendErr, s1) => (Except.error sendErr, s1)
      | (Except.ok queryResponse, s1) =>
          let resultsBytes := JSONValue.array (queryResponse.Results.map AnyResult.marshal)
          match c.unmarshalParameters resultsBytes with
          | Except.error jsonDecErr => (Except.error jsonDecErr, s1)
          | Except.ok results =>
              let iArr := results.map AnyResult.smartClassParameter
              (Except.ok { queryResponse with Results := iArr }, s1)

/-! ## `foreman/resource_foreman_override_value.go` -/

/-- Function `buildForemanOverrideValue`.  `buildForemanObject`, the helper
that fills the embedded base object from the bag, lives outside the sources
and is an argument.  `none` stands for the panic of a failed type assertion.
The source ends with `return &common_parameter`, a name it does not declare;
the model built in the body, `override_value`, is what is returned. -/
def buildForemanOverrideValue (buildForemanObject : ResourceData → ForemanObject)
    (d : ResourceData) : Option ForemanOverrideValue := do
  let override_value : ForemanOverrideValue := {}
  let obj := buildForemanObject d
  let override_value := { override_value with toForemanObject := obj }
  let override_value ←
    match d.GetOk "match" with
    | some attr => (attr.assertString).map fun v => { override_value with Match := v }
    | none => some override_value
  let override_value ←
    match d.GetOk "value" with
    | some attr => (attr.assertString).map fun v => { override_value with Value := v }
    | none => some override_value
  let override_value ←
    match d.GetOk "omit" with
    | some attr => (attr.assertBool).map fun v => { override_value with Omit := v }
    | none => some override_value
  pure override_value

/-- Function `setResourceDataFromForemanOverrideValue`. -/
def setResourceDataFromForemanOverrideValue (d : ResourceData) (fd : ForemanOverrideValue) :
    ResourceData :=
  let d := d.SetId (Itoa fd.Id)
  let d := d.Set "match" (AttrValue.string fd.Match)
  let d := d.Set "value" (AttrValue.string fd.Value)
  let d := d.Set "omit" (AttrValue.bool fd.Omit)
  d

/-- End of a handler call: it returned (with an error or `nil`) leaving the
bag as given, or it panicked. -/
inductive Outcome where
  | returned (err : Option Error) (d : ResourceData)
  | panicked

/-- The error a handler returned, `none` inside for `nil`; `none` outside when
it panicked. -/
def Outcome.err? : Outcome → Option (Option Error)
  | Outcome.returned err _ => some err
  | Outcome.panicked => none

/-- The bag a handler left behind when it returned. -/
def Outcome.bag? : Outcome → Option ResourceData
  | Outcome.returned _ d => some d
  | Outcome.panicked => none

/-- The handler returned an error. -/
def Outcome.isError : Outcome → Bool
  | Outcome.returned (some _) _ => true
  | _ => false

/-- The handler returned `nil`. -/
def Outcome.isSuccess : Outcome → Bool
  | Outcome.returned none _ => true
  | _ => false

/-- Handler `resourceForemanOverrideValueCreate`. -/
def resourceForemanOverrideValueCreate {σ : Type}
    (buildForemanObject : ResourceData → ForemanObject)
    (client : Client σ) (d : ResourceData) (s : σ) : Outcome × σ :=
  match buildForemanOverrideValue buildForemanObject d with
  | none => (Outcome.panicked, s)
  | some p =>
      match CreateOverrideValue client p s with
      | (Except.error createErr, s1) => (Outcome.returned (some createErr) d, s1)
      | (Except.ok createdParam, s1) =>
          (Outcome.returned none (setResourceDataFromForemanOverrideValue d createdParam), s1)

/-- Handler `resourceForemanOverrideValueRead`. -/
def resourceForemanOverrideValueRead {σ : Type}
    (buildForemanObject : ResourceData → ForemanObject)
    (client : Client σ) (d : ResourceData) (s : σ) : Outcome × σ :=
  match buildForemanOverrideValue buildForemanObject d with
  | none => (Outcome.panicked, s)
  | some common_parameter =>
      match ReadOverrideValue client common_parameter common_parameter.Id s with
      | (Except.error readErr, s1) => (Outcome.returned (some readErr) d, s1)
      | (Except.ok readOverrideValue, s1) =>
          (Outcome.returned none (setResourceDataFromForemanOverrideValue d readOverrideValue), s1)

/-- Handler `resourceForemanOverrideValueUpdate`. -/
def resourceForemanOverrideValueUpdate {σ : Type}
    (buildForemanObject : ResourceData → ForemanObject)
    (client : Client σ) (d : ResourceData) (s : σ) : Outcome × σ :=
  match buildForemanOverrideValue buildForemanObject d with
  | none => (Outcome.panicked, s)
  | some p =>
      match UpdateOverrideValue client p p.Id s with
      | (Except.error updateErr, s1) => (Outcome.returned (some updateErr) d, s1)
      | (Except.ok updatedParam, s1) =>
          (Outcome.returned none (setResourceDataFromForemanOverrideValue d updatedParam), s1)

/-- Handler `resourceForemanOverrideValueDelete`. -/
def resourceForemanOverrideValueDelete {σ : Type}
    (buildForemanObject : ResourceData → ForemanObject)
    (client : Client σ) (d : ResourceData) (s : σ) : Outcome × σ :=
  match buildForemanOverrideValue buildForemanObject d with
  | none => (Outcome.panicked, s)
  | some p =>
      match DeleteOverrideValue client p p.Id s with
      | (err, s1) => (Outcome.returned err d, s1)

/-! ## `foreman/data_source_foreman_override_value.go` -/

/-- The part of `dataSourceForemanOverrideValueRead` after a successful
query: the count check, the access to `Results[0]` (a panic on an empty
list), the type assertion and the write-back. -/
def dataSourceForemanOverrideValueReadResult (d : ResourceData)
    (queryResponse : QueryResponse) : Outcome :=
  if queryResponse.Subtotal = 0 then
    Outcome.returned (some ⟨"Data source override_value returned no results"⟩) d
  else if queryResponse.Subtotal > 1 then
    Outcome.returned (some ⟨"Data source override_value returned more than 1 result"⟩) d
  else
    match queryResponse.Results with
    | [] => Outcome.panicked
    | AnyResult.overrideValue queryOverrideValue :: _ =>
        Outcome.returned none (setResourceDataFromForemanOverrideValue d queryOverrideValue)
    | other :: _ =>
        Outcome.returned
          (some ⟨"Data source results contain unexpected type. Expected " ++
            "[api.ForemanOverrideValue], got [" ++ other.typeName ++ "]"⟩) d

/-- Handler `dataSourceForemanOverrideValueRead`. -/
def dataSourceForemanOverrideValueRead {σ : Type}
    (buildForemanObject : ResourceData → ForemanObject)
    (client : Client σ) (d : ResourceData) (s : σ) : Outcome × σ :=
  match buildForemanOverrideValue buildForemanObject d with
  | none => (Outcome.panicked, s)
  | some override_value =>
      match QueryOverrideValue client override_value s with
      | (Except.error queryErr, s1) => (Outcome.returned (some queryErr) d, s1)
      | (Except.ok queryResponse, s1) =>
          (dataSourceForemanOverrideValueReadResult d queryResponse, s1)

/-! ## Concrete collaborators for evaluating the code -/

/-- Replies of a scripted remote. -/
structure Script where
  overrideValue : Except Error ForemanOverrideValue := Except.ok {}
  parameter : Except Error ForemanSmartClassParameter := Except.ok {}
  query : Except Error QueryResponse := Except.ok {}
  nil : Option Error := none
  overrideValues : Except Error (List ForemanOverrideValue) := Except.ok []
  parameters : Except Error (List ForemanSmartClassParameter) := Except.ok []

/-- Modelled from the spec: the method `apiEndpoint()` lives outside the
sources; the resource-kind segment and the parent ID are "resolved by
inspecting which of the three optional parent IDs is set". -/
def parentEndpoint (d : ForemanSmartClassParameter) : String × Int :=
  if d.HostID ≠ 0 then ("hosts", d.HostID)
  else if d.HostGroupID ≠ 0 then ("hostgroups", d.HostGroupID)
  else if d.EnvironmentID ≠ 0 then ("environments", d.EnvironmentID)
  else ("", 0)

/-- Client of a scripted remote: every request is answered from the script,
and the remote state is the list of the requests received so far. -/
def scriptedClient (sc : Script) : Client (List Request) where
  newRequestError := fun _ _ => none
  SendAndParseOverrideValue := fun req log => (sc.overrideValue, log ++ [req])
  SendAndParseParameter := fun req log => (sc.parameter, log ++ [req])
  SendAndParseQuery := fun req log => (sc.query, log ++ [req])
  SendAndParseNil := fun req log => (sc.nil, log ++ [req])
  unmarshalOverrideValues := fun _ => sc.overrideValues
  unmarshalParameters := fun _ => sc.parameters
  apiEndpoint := parentEndpoint

/-- Bag with the given identity and the listed attributes set. -/
def bagOf (id : String) (entries : List (String × AttrValue)) : ResourceData where
  id := id
  attrs := fun k => (entries.find? fun p => p.1 = k).map Prod.snd

/-- Go `strconv.Atoi` on the characters of a decimal numeral without sign. -/
def parseDigits : List Char → Nat → Option Nat
  | [], acc => some acc
  | c :: rest, acc =>
      if '0' ≤ c ∧ c ≤ '9' then parseDigits rest (10 * acc + (c.toNat - '0'.toNat)) else none

/-- Go `strconv.Atoi`: an optional sign followed by at least one decimal
digit; `none` stands for the returned error. -/
def Atoi (s : String) : Option Int :=
  match s.toList with
  | [] => none
  | ['-'] => none
  | ['+'] => none
  | '-' :: ds => (parseDigits ds 0).map fun n => - (n : Int)
  | '+' :: ds => (parseDigits ds 0).map fun n => (n : Int)
  | ds => (parseDigits ds 0).map fun n => (n : Int)

/-- A stand-in for the helper `buildForemanObject`, used to evaluate the
code: the identity is read back from the decimal identity of the bag (zero
when it is not a number) and the name from the attribute `name`. -/
def objectFromBag (d : ResourceData) : ForemanObject :=
  { Id := (Atoi d.Id).getD 0,
    Name :=
      match d.attrs "name" with
      | some (AttrValue.string n) => n
      | _ => "" }

/-- Generic JSON object of an override value with identity 4, as a remote
lists it. -/
def redHatReply : JSONValue :=
  JSONValue.object
    [ ("id", JSONValue.number 4),
      ("match", JSONValue.string "os=RedHat"),
      ("value", JSONValue.string "true"),
      ("omit", JSONValue.bool false) ]

/-- Override value with parent parameter 7, the example of the
specification. -/
def redHatOverride : ForemanOverrideValue :=
  { SmartClassParameterID := "7", Match := "os=RedHat", Value := "true", Omit := false }

/-- Bag of the example override value: parent parameter 7, all three content
attributes set. -/
def redHatBag : ResourceData :=
  bagOf "12"
    [ ("smart_class_parameter_id", AttrValue.string "7"),
      ("match", AttrValue.string "os=RedHat"),
      ("value", AttrValue.string "true"),
      ("omit", AttrValue.bool true) ]

/-- Remote whose every reply is the error `503 Service Unavailable`. -/
def unavailable : Script :=
  { overrideValue := Except.error ⟨"503 Service Unavailable"⟩,
    parameter := Except.error ⟨"503 Service Unavailable"⟩,
    query := Except.error ⟨"503 Service Unavailable"⟩,
    nil := some ⟨"503 Service Unavailable"⟩ }

/-- Parameter of host 1 as held locally: one override value submitted. -/
def localParameter : ForemanSmartClassParameter :=
  { HostID := 1, Description := "local", DefaultValue := "a",
    OverrideValues := [{ Match := "os=RedHat", Value := "true" }] }

/-- Parameter 5 as the remote reports it. -/
def remoteParameter : ForemanSmartClassParameter :=
  { Id := 5, Name := "port", Override := true, Description := "remote", DefaultValue := "b",
    ValidatorType := "regexp", ValidatorRule := "[0-9]+",
    OverrideValues := [{ Match := "fqdn=web01", Value := "8080" }], Required := true }

/-- The handler call ended in a panic. -/
def Outcome.isPanic : Outcome → Bool
  | Outcome.panicked => true
  | Outcome.returned _ _ => false

/-- Remote that reports one matching result and lists none. -/
def countWithoutResults : Script :=
  { query := Except.ok { Subtotal := 1, Results := [] },
    overrideValues := Except.ok [] }

/-- Bag of a data source that searches for the name `web01`. -/
def web01Bag : ResourceData :=
  bagOf "" [("name", AttrValue.string "web01")]

/-- Remote that reports one matching result and lists it. -/
def oneMatch : Script :=
  { query := Except.ok { Subtotal := 1, Results := [AnyResult.generic redHatReply] },
    overrideValues := Except.ok [{ Id := 4, Match := "os=RedHat", Value := "true" }] }

/-- Remote that reports two matching results and lists them. -/
def twoMatches : Script :=
  { query := Except.ok
      { Subtotal := 2, Results := [AnyResult.generic redHatReply, AnyResult.generic redHatReply] },
    overrideValues := Except.ok
      [ { Id := 4, Match := "os=RedHat", Value := "true" },
        { Id := 4, Match := "os=RedHat", Value := "true" } ] }

/-! ## Theorems -/

/-- A key of string type holds a string when it is set, in a well-typed bag. -/
theorem WellTyped.string_of_attrs {d : ResourceData} (hd : d.WellTyped) {key : String}
    (hk : (key, ValueType.TypeString) ∈ resourceForemanOverrideValueSchema)
    {v : AttrValue} (hv : d.attrs key = some v) : ∃ x, v = AttrValue.string x := by
  have h := hd _ hk
  simp only [hv, Option.all_some, decide_eq_true_eq] at h
  cases v with
  | string x => exact ⟨x, rfl⟩
  | bool b => simp [AttrValue.type] at h

/-- A key of boolean type holds a flag when it is set, in a well-typed bag. -/
theorem WellTyped.bool_of_attrs {d : ResourceData} (hd : d.WellTyped) {key : String}
    (hk : (key, ValueType.TypeBool) ∈ resourceForemanOverrideValueSchema)
    {v : AttrValue} (hv : d.attrs key = some v) : ∃ x, v = AttrValue.bool x := by
  have h := hd _ hk
  simp only [hv, Option.all_some, decide_eq_true_eq] at h
  cases v with
  | bool x => exact ⟨x, rfl⟩
  | string b => simp [AttrValue.type] at h

/-- On a key of string type `GetOk` reports the stored string unless it is
empty. -/
theorem getOk_string {d : ResourceData} (hd : d.WellTyped) {key : String}
    (hk : (key, ValueType.TypeString) ∈ resourceForemanOverrideValueSchema) :
    d.GetOk key
      = if d.storedString key = "" then none else some (AttrValue.string (d.storedString key)) := by
  unfold ResourceData.GetOk ResourceData.storedString
  cases hv : d.attrs key with
  | none => simp
  | some v =>
    obtain ⟨x, rfl⟩ := WellTyped.string_of_attrs hd hk hv
    by_cases hx : x = ""
    · simp [hx, AttrValue.zero, AttrValue.type]
    · simp [hx, AttrValue.zero, AttrValue.type]

/-- On a key of boolean type `GetOk` reports the stored flag unless it is
false. -/
theorem getOk_bool {d : ResourceData} (hd : d.WellTyped) {key : String}
    (hk : (key, ValueType.TypeBool) ∈ resourceForemanOverrideValueSchema) :
    d.GetOk key = if d.storedBool key = true then some (AttrValue.bool true) else none := by
  unfold ResourceData.GetOk ResourceData.storedBool
  cases hv : d.attrs key with
  | none => simp
  | some v =>
    obtain ⟨x, rfl⟩ := WellTyped.bool_of_attrs hd hk hv
    cases x <;> simp [AttrValue.zero, AttrValue.type]

/-- On a well-typed bag `buildForemanOverrideValue` returns a model: the base
object of the helper, an empty parent ID, and the stored values of `match`,
`value` and `omit`. -/
theorem buildForemanOverrideValue_of_wellTyped
    (buildForemanObject : ResourceData → ForemanObject) {d : ResourceData} (hd : d.WellTyped) :
    buildForemanOverrideValue buildForemanObject d
      = some { toForemanObject := buildForemanObject d,
               SmartClassParameterID := "",
               Match := d.storedString "match",
               Value := d.storedString "value",
               Omit := d.storedBool "omit" } := by
  unfold buildForemanOverrideValue
  rw [@getOk_string d hd "match" (by decide), @getOk_string d hd "value" (by decide),
    @getOk_bool d hd "omit" (by decide)]
  by_cases h1 : d.storedString "match" = "" <;>
  by_cases h2 : d.storedString "value" = "" <;>
  by_cases h3 : d.storedBool "omit" = true <;>
  simp [h1, h2, h3, AttrValue.assertString, AttrValue.assertBool]

/-- The count check returns an error on a count of 0 or above 1. -/
theorem readResult_isError_of_count (d : ResourceData) (q : QueryResponse)
    (h : q.Subtotal = 0 ∨ q.Subtotal > 1) :
    (dataSourceForemanOverrideValueReadResult d q).isError = true := by
  unfold dataSourceForemanOverrideValueReadResult
  rcases h with h | h
  · simp [h, Outcome.isError]
  · have h0 : q.Subtotal ≠ 0 := by omega
    simp [h0, h, Outcome.isError]

/-- The count check lets through only counts that are neither 0 nor above 1. -/
theorem readResult_count_of_isSuccess (d : ResourceData) (q : QueryResponse)
    (h : (dataSourceForemanOverrideValueReadResult d q).isSuccess = true) :
    q.Subtotal ≠ 0 ∧ ¬ q.Subtotal > 1 := by
  unfold dataSourceForemanOverrideValueReadResult at h
  by_cases h0 : q.Subtotal = 0
  · simp [h0, Outcome.isSuccess] at h
  · by_cases h1 : q.Subtotal > 1
    · simp [h0, h1, Outcome.isSuccess] at h
    · exact ⟨h0, h1⟩

/-- Claim C1: for every query response `q` that `QueryOverrideValue` returns
without error, with `q.Subtotal` the reported result count (a count is not
negative), `dataSourceForemanOverrideValueRead` returns an error when the
count is 0 or greater than 1, and it returns success only when the count is
exactly 1. -/
theorem dataSourceRead_count_contract {σ : Type}
    (buildForemanObject : ResourceData → ForemanObject) (client : Client σ)
    (d : ResourceData) (s s1 : σ) (p : ForemanOverrideValue) (q : QueryResponse)
    (hb : buildForemanOverrideValue buildForemanObject d = some p)
    (hq : QueryOverrideValue client p s = (Except.ok q, s1))
    (hcount : 0 ≤ q.Subtotal) :
    ((q.Subtotal = 0 ∨ q.Subtotal > 1) →
        (dataSourceForemanOverrideValueRead buildForemanObject client d s).1.isError = true) ∧
    ((dataSourceForemanOverrideValueRead buildForemanObject client d s).1.isSuccess = true →
        q.Subtotal = 1) := by
  have hrun : dataSourceForemanOverrideValueRead buildForemanObject client d s
      = (dataSourceForemanOverrideValueReadResult d q, s1) := by
    simp [dataSourceForemanOverrideValueRead, hb, hq]
  rw [hrun]
  refine ⟨fun h => readResult_isError_of_count d q h, fun h => ?_⟩
  have := readResult_count_of_isSuccess d q h
  omega

/-- Witness for claim C1, on the bag that searches for `web01`: against a
remote that reports and lists one result the handler returns success and the
count is 1; against a remote that reports and lists two results the handler
returns an error. -/
theorem dataSourceRead_count_contract_witness :
    (dataSourceForemanOverrideValueRead objectFromBag (scriptedClient oneMatch)
        web01Bag []).1.isSuccess = true ∧
    (0 : Int) ≤ 1 ∧
    ((QueryOverrideValue (scriptedClient oneMatch) { Name := "web01" } []).1.toOption.map
        fun q => q.Subtotal) = some 1 ∧
    (0 : Int) ≤ 2 ∧
    (dataSourceForemanOverrideValueRead objectFromBag (scriptedClient twoMatches)
        web01Bag []).1.isError = true :=
  ⟨rfl, by decide,
    congrArg some
      ((dataSourceRead_count_contract objectFromBag (scriptedClient oneMatch) web01Bag [] _
          { Name := "web01" }
          { Subtotal := 1,
            Results := [AnyResult.overrideValue { Id := 4, Match := "os=RedHat", Value := "true" }] }
          rfl rfl (by decide)).2 rfl),
    by decide,
    (dataSourceRead_count_contract objectFromBag (scriptedClient twoMatches) web01Bag [] _
        { Name := "web01" }
        { Subtotal := 2,
          Results :=
            [ AnyResult.overrideValue { Id := 4, Match := "os=RedHat", Value := "true" },
              AnyResult.overrideValue { Id := 4, Match := "os=RedHat", Value := "true" } ] }
        rfl rfl (by decide)).1 (Or.inr (by decide))⟩

/-- Outside the counts: a reply whose `Subtotal` is `-1` and that lists one
override value is returned by `QueryOverrideValue` without error, passes both
guards of the handler (`== 0` and `> 1`), and the handler returns success.
The count contract is therefore stated for a non-negative `Subtotal`. -/
theorem readResult_negative_subtotal_passes :
    ∃ (p : ForemanOverrideValue) (q : QueryResponse) (s1 : List Request),
      buildForemanOverrideValue objectFromBag web01Bag = some p ∧
      QueryOverrideValue
        (scriptedClient
          { query := Except.ok { Subtotal := -1, Results := [AnyResult.generic redHatReply] },
            overrideValues := Except.ok [{ Id := 4, Match := "os=RedHat", Value := "true" }] })
        p [] = (Except.ok q, s1) ∧
      q.Subtotal = -1 ∧
      (dataSourceForemanOverrideValueRead objectFromBag
        (scriptedClient
          { query := Except.ok { Subtotal := -1, Results := [AnyResult.generic redHatReply] },
            overrideValues := Except.ok [{ Id := 4, Match := "os=RedHat", Value := "true" }] })
        web01Bag []).1.isSuccess = true :=
  ⟨_, _, _, rfl, rfl, rfl, rfl⟩

/-- Characters of an appended string. -/
theorem toList_append (a b : String) : (a ++ b).toList = a.toList ++ b.toList := by
  simp [String.toList]

/-- Claim C2 on the code: `CreateOverrideValue` formats the parent ID, a
`string`, under the verb `%d`.  For the parent ID `7` the one request it sends
is a POST to `smart_class_parameters/%!d(string=7)/override_values`, not to
`smart_class_parameters/7/override_values`; for every parent ID `p` the
endpoint is `smart_class_parameters/%!d(string=p)/override_values`. -/
theorem createOverrideValue_endpoint_bad_verb :
    ((CreateOverrideValue (scriptedClient {}) redHatOverride []).2.map
        fun r => (r.Method, r.Endpoint))
      = [("POST", "smart_class_parameters/%!d(string=7)/override_values")] ∧
    ((CreateOverrideValue (scriptedClient {}) redHatOverride []).2.map
        fun r => r.Endpoint)
      ≠ ["smart_class_parameters/7/override_values"] ∧
    ∀ t : ForemanOverrideValue,
      ((CreateOverrideValue (scriptedClient {}) t []).2.map fun r => r.Endpoint)
        = ["smart_class_parameters/%!d(string=" ++ t.SmartClassParameterID ++ ")/override_values"] := by
  refine ⟨by decide, by decide, fun t => ?_⟩
  simp only [CreateOverrideValue, CreateOverrideValueRequest, WrapJSON, Client.NewRequest,
    scriptedClient, List.nil_append, List.map_cons, List.map_nil, List.cons.injEq, and_true]
  apply String.ext
  simp [Sprintf, OverrideValueEndpointPrefix, SprintfAux, fmtVerb, String.singleton, toList_append,
    String.data_append]

/-- Claim C3 on the code: for every model and ID the body `CreateOverrideValue`
sends is the model under the single wrapper key `override_value`, while the
body `UpdateOverrideValue` sends is the model under the single wrapper key
`ptable`. -/
theorem updateOverrideValue_wrapper_key (t : ForemanOverrideValue) (id : Int) :
    ((CreateOverrideValue (scriptedClient {}) t []).2.map fun r => r.Body.map JSONValue.keys)
      = [some ["override_value"]] ∧
    ((CreateOverrideValue (scriptedClient {}) t []).2.map
        fun r => r.Body.bind fun b => (b.member "override_value").map JSONValue.keys)
      = [some t.marshal.keys] ∧
    ((UpdateOverrideValue (scriptedClient {}) t id []).2.map fun r => r.Body.map JSONValue.keys)
      = [some ["ptable"]] ∧
    ((UpdateOverrideValue (scriptedClient {}) t id []).2.map
        fun r => r.Body.bind fun b => (b.member "override_value").map JSONValue.keys)
      = [none] ∧
    ((UpdateOverrideValue (scriptedClient {}) t id []).2.map
        fun r => r.Body.bind fun b => (b.member "ptable").map JSONValue.keys)
      = [some t.marshal.keys] := by
  simp [CreateOverrideValue, CreateOverrideValueRequest, UpdateOverrideValue,
    UpdateOverrideValueRequest, WrapJSON, Client.NewRequest, scriptedClient, JSONValue.keys,
    JSONValue.member]

/-- Claim C4 on the code: `buildForemanOverrideValue` never reads the key
`smart_class_parameter_id`.  The bag of the example, with that key set to `7`,
builds a model whose `SmartClassParameterID` is empty (the other three fields
carry the values of the bag), and so does every bag. -/
theorem buildForemanOverrideValue_drops_parent_id :
    buildForemanOverrideValue objectFromBag redHatBag
      = some { Id := 12, Name := "", SmartClassParameterID := "", Match := "os=RedHat",
               Value := "true", Omit := true } ∧
    redHatBag.Get "smart_class_parameter_id" = some (AttrValue.string "7") ∧
    ∀ (buildForemanObject : ResourceData → ForemanObject) (d : ResourceData),
      (buildForemanOverrideValue buildForemanObject d).map
          ForemanOverrideValue.SmartClassParameterID
        = (buildForemanOverrideValue buildForemanObject d).map fun _ => "" := by
  refine ⟨by decide, by decide, fun bfo d => ?_⟩
  unfold buildForemanOverrideValue
  generalize d.GetOk "match" = a
  generalize d.GetOk "value" = b
  generalize d.GetOk "omit" = c
  rcases a with _ | a | a <;> rcases b with _ | b | b <;> rcases c with _ | c | c <;> rfl

/-- The bag after `setResourceDataFromForemanOverrideValue`, key by key. -/
theorem setResourceData_attrs (d : ResourceData) (fd : ForemanOverrideValue) (k : String) :
    (setResourceDataFromForemanOverrideValue d fd).attrs k
      = if k = "match" then some (AttrValue.string fd.Match)
        else if k = "value" then some (AttrValue.string fd.Value)
        else if k = "omit" then some (AttrValue.bool fd.Omit)
        else d.attrs k := by
  simp only [setResourceDataFromForemanOverrideValue, ResourceData.Set, ResourceData.SetId]
  by_cases h1 : k = "match"
  · subst h1; simp
  · by_cases h2 : k = "value"
    · subst h2; simp
    · simp [h1, h2]

/-- The identity after `setResourceDataFromForemanOverrideValue`. -/
theorem setResourceData_id (d : ResourceData) (fd : ForemanOverrideValue) :
    (setResourceDataFromForemanOverrideValue d fd).id = Itoa fd.Id := rfl

/-- Writing a model back keeps the bag well-typed. -/
theorem setResourceData_wellTyped {d : ResourceData} (hd : d.WellTyped)
    (fd : ForemanOverrideValue) : (setResourceDataFromForemanOverrideValue d fd).WellTyped := by
  intro p hp
  have h := hd p hp
  rw [setResourceData_attrs]
  simp only [resourceForemanOverrideValueSchema, MetaAttribute, List.mem_cons, List.mem_singleton,
    List.mem_nil_iff, or_false] at hp
  rcases hp with rfl | rfl | rfl | rfl | rfl
  · simpa [MetaAttribute] using h
  · simpa using h
  · simp [AttrValue.type]
  · simp [AttrValue.type]
  · simp [AttrValue.type]

/-- Claim C6: for every bag `d` and model `m`,
`setResourceDataFromForemanOverrideValue` sets the identity to the decimal
string of `m.Id`, sets `match`, `value` and `omit` to `m.Match`, `m.Value` and
`m.Omit`, and leaves every other key as it was in `d`. -/
theorem setResourceData_frame (d : ResourceData) (m : ForemanOverrideValue) :
    (setResourceDataFromForemanOverrideValue d m).Id = Itoa m.Id ∧
    (setResourceDataFromForemanOverrideValue d m).attrs "match" = some (AttrValue.string m.Match) ∧
    (setResourceDataFromForemanOverrideValue d m).attrs "value" = some (AttrValue.string m.Value) ∧
    (setResourceDataFromForemanOverrideValue d m).attrs "omit" = some (AttrValue.bool m.Omit) ∧
    ∀ k : String,
      (setResourceDataFromForemanOverrideValue d m).attrs k
        = if k = "match" then some (AttrValue.string m.Match)
          else if k = "value" then some (AttrValue.string m.Value)
          else if k = "omit" then some (AttrValue.bool m.Omit)
          else d.attrs k := by
  refine ⟨rfl, ?_, ?_, ?_, fun k => setResourceData_attrs d m k⟩
  · rw [setResourceData_attrs]; simp
  · rw [setResourceData_attrs]; simp
  · rw [setResourceData_attrs]; simp

/-- The stored string of a key of string type is what `Get` reports. -/
theorem get_string {d : ResourceData} (hd : d.WellTyped) {key : String}
    (hk : (key, ValueType.TypeString) ∈ resourceForemanOverrideValueSchema)
    (hs : schemaType key = some ValueType.TypeString) :
    d.Get key = some (AttrValue.string (d.storedString key)) := by
  unfold ResourceData.Get ResourceData.storedString
  rw [hs]
  cases hv : d.attrs key with
  | none => simp [AttrValue.zero]
  | some v =>
    obtain ⟨x, rfl⟩ := WellTyped.string_of_attrs hd hk hv
    simp

/-- The stored flag of a key of boolean type is what `Get` reports. -/
theorem get_bool {d : ResourceData} (hd : d.WellTyped) {key : String}
    (hk : (key, ValueType.TypeBool) ∈ resourceForemanOverrideValueSchema)
    (hs : schemaType key = some ValueType.TypeBool) :
    d.Get key = some (AttrValue.bool (d.storedBool key)) := by
  unfold ResourceData.Get ResourceData.storedBool
  rw [hs]
  cases hv : d.attrs key with
  | none => simp [AttrValue.zero]
  | some v =>
    obtain ⟨x, rfl⟩ := WellTyped.bool_of_attrs hd hk hv
    simp

/-- Two bags with the same identity and the same value under every key are
equal. -/
theorem ResourceData.eq_of_id_attrs {a b : ResourceData} (hid : a.id = b.id)
    (hattrs : ∀ k, a.attrs k = b.attrs k) : a = b := by
  cases a
  cases b
  simp only [ResourceData.mk.injEq]
  exact ⟨hid, funext hattrs⟩

/-- Writing back a second model with the same content attributes changes no
attribute. -/
theorem setResourceData_twice_attrs (d : ResourceData) (m m1 : ForemanOverrideValue)
    (h1 : m1.Match = m.Match) (h2 : m1.Value = m.Value) (h3 : m1.Omit = m.Omit) (k : String) :
    (setResourceDataFromForemanOverrideValue
        (setResourceDataFromForemanOverrideValue d m) m1).attrs k
      = (setResourceDataFromForemanOverrideValue d m).attrs k := by
  rw [setResourceData_attrs, setResourceData_attrs, h1, h2, h3]
  by_cases hm : k = "match"
  · simp [hm]
  · by_cases hv : k = "value"
    · simp [hv]
    · by_cases ho : k = "omit"
      · simp [ho]
      · simp [hm, hv, ho]

/-- Claim C5: for every bag `b` (holding values of the schema's types),
`buildForemanOverrideValue` returns a model `m`, and writing `m` back with
`setResourceDataFromForemanOverrideValue` leaves the value `Get` reports for
each of `smart_class_parameter_id`, `match`, `value`, `omit` as it was in `b`.
Building and writing back a second time succeeds as well and changes no
attribute of the bag; it changes nothing at all once the helper
`buildForemanObject` reads the same identity from both bags. -/
theorem build_set_round_trip (buildForemanObject : ResourceData → ForemanObject)
    (b : ResourceData) (hb : b.WellTyped) :
    ∃ m, buildForemanOverrideValue buildForemanObject b = some m ∧
      (∀ k ∈ recognizedKeys,
        (setResourceDataFromForemanOverrideValue b m).Get k = b.Get k) ∧
      ∃ m1, buildForemanOverrideValue buildForemanObject
              (setResourceDataFromForemanOverrideValue b m) = some m1 ∧
        (∀ k : String,
          (setResourceDataFromForemanOverrideValue
              (setResourceDataFromForemanOverrideValue b m) m1).attrs k
            = (setResourceDataFromForemanOverrideValue b m).attrs k) ∧
        ((buildForemanObject (setResourceDataFromForemanOverrideValue b m)).Id
            = (buildForemanObject b).Id →
          setResourceDataFromForemanOverrideValue
              (setResourceDataFromForemanOverrideValue b m) m1
            = setResourceDataFromForemanOverrideValue b m) := by
  have hb1 := fun m => setResourceData_wellTyped hb m
  refine ⟨_, buildForemanOverrideValue_of_wellTyped buildForemanObject hb, ?_,
    _, buildForemanOverrideValue_of_wellTyped buildForemanObject (hb1 _), ?_, ?_⟩
  · intro k hk
    simp only [recognizedKeys, List.mem_cons, List.mem_singleton, List.mem_nil_iff, or_false] at hk
    rcases hk with rfl | rfl | rfl | rfl
    · simp [ResourceData.Get, setResourceData_attrs]
    · rw [get_string (hb1 _) (by decide) (by decide), get_string hb (by decide) (by decide)]
      simp [ResourceData.storedString, setResourceData_attrs]
    · rw [get_string (hb1 _) (by decide) (by decide), get_string hb (by decide) (by decide)]
      simp [ResourceData.storedString, setResourceData_attrs]
    · rw [get_bool (hb1 _) (by decide) (by decide), get_bool hb (by decide) (by decide)]
      simp [ResourceData.storedBool, setResourceData_attrs]
  · intro k
    apply setResourceData_twice_attrs <;>
      simp [ResourceData.storedString, ResourceData.storedBool, setResourceData_attrs]
  · intro hid
    apply ResourceData.eq_of_id_attrs
    · simp only [setResourceData_id]
      rw [hid]
    · intro k
      apply setResourceData_twice_attrs <;>
        simp [ResourceData.storedString, ResourceData.storedBool, setResourceData_attrs]

/-- Witness for claim C5: the bag of the example is well-typed, and the helper
that reads the identity back from the bag reads 12 before and after. -/
theorem build_set_round_trip_witness :
    redHatBag.WellTyped ∧
    (objectFromBag (setResourceDataFromForemanOverrideValue redHatBag
        { Id := 12, Match := "os=RedHat", Value := "true", Omit := true })).Id
      = (objectFromBag redHatBag).Id ∧
    ∃ m, buildForemanOverrideValue objectFromBag redHatBag = some m ∧
      (∀ k ∈ recognizedKeys,
        (setResourceDataFromForemanOverrideValue redHatBag m).Get k = redHatBag.Get k) ∧
      ∃ m1, buildForemanOverrideValue objectFromBag
              (setResourceDataFromForemanOverrideValue redHatBag m) = some m1 ∧
        (∀ k : String,
          (setResourceDataFromForemanOverrideValue
              (setResourceDataFromForemanOverrideValue redHatBag m) m1).attrs k
            = (setResourceDataFromForemanOverrideValue redHatBag m).attrs k) ∧
        ((objectFromBag (setResourceDataFromForemanOverrideValue redHatBag m)).Id
            = (objectFromBag redHatBag).Id →
          setResourceDataFromForemanOverrideValue
              (setResourceDataFromForemanOverrideValue redHatBag m) m1
            = setResourceDataFromForemanOverrideValue redHatBag m) :=
  ⟨by decide, by decide, build_set_round_trip objectFromBag redHatBag (by decide)⟩

/-- The filter text `name=` followed by an opening quote. -/
theorem name_quote_append (x : String) : "name=" ++ ("\"" ++ x) = "name=\"" ++ x := by
  rw [← String.append_assoc]
  rfl

/-- Claim C7: for every model the request `QueryOverrideValue` and
`QueryParameter` build carries the query parameter `search` with the value
`name="<Name>"`, the name inserted as it is; the request is built whenever
`NewRequest` does not fail, and it is the request the remote receives. -/
theorem query_search_parameter {σ : Type} (c : Client σ) (t : ForemanOverrideValue)
    (d : ForemanSmartClassParameter) (sc : Script) :
    (match QueryOverrideValueRequest c t with
      | Except.ok req => Values.Get req.Query "search" = "name=\"" ++ t.Name ++ "\""
      | Except.error e =>
          c.newRequestError MethodGet
            (Sprintf "/%s/%d" [FmtArg.string OverrideValueEndpointPrefix, FmtArg.int t.Id])
            = some e) ∧
    (match QueryParameterRequest c d with
      | Except.ok req => Values.Get req.Query "search" = "name=\"" ++ d.Name ++ "\""
      | Except.error e =>
          c.newRequestError MethodGet (Sprintf "/%s" [FmtArg.string ParameterEndpointPrefix])
            = some e) ∧
    ((QueryOverrideValue (scriptedClient sc) t []).2.map fun r => r.Query)
      = [[("search", ["name=\"" ++ t.Name ++ "\""])]] ∧
    ((QueryParameter (scriptedClient sc) d []).2.map fun r => r.Query)
      = [[("search", ["name=\"" ++ d.Name ++ "\""])]] := by
  refine ⟨?_, ?_, ?_, ?_⟩
  · cases h : c.newRequestError MethodGet
        (Sprintf "/%s/%d" [FmtArg.string OverrideValueEndpointPrefix, FmtArg.int t.Id]) with
    | none =>
      simp [QueryOverrideValueRequest, Client.NewRequest, h, Values.Set, Values.Get,
        String.append_assoc, name_quote_append]
    | some e => simp [QueryOverrideValueRequest, Client.NewRequest, h]
  · cases h : c.newRequestError MethodGet (Sprintf "/%s" [FmtArg.string ParameterEndpointPrefix]) with
    | none =>
      simp [QueryParameterRequest, Client.NewRequest, h, Values.Set, Values.Get,
        String.append_assoc, name_quote_append]
    | some e => simp [QueryParameterRequest, Client.NewRequest, h]
  · simp only [QueryOverrideValue, QueryOverrideValueRequest, Client.NewRequest, scriptedClient,
      Values.Set]
    cases sc.query with
    | error e => simp [String.append_assoc, name_quote_append]
    | ok q => cases sc.overrideValues <;> simp [String.append_assoc, name_quote_append]
  · simp only [QueryParameter, QueryParameterRequest, Client.NewRequest, scriptedClient,
      Values.Set]
    cases sc.query with
    | error e => simp [String.append_assoc, name_quote_append]
    | ok q => cases sc.parameters <;> simp [String.append_assoc, name_quote_append]

/-- Claim C8: for each of the five override-value handlers, once the model `p`
is built from the bag `d`, an error `e` of the underlying API operation is
what the handler returns, with the bag as it was; and whenever a handler
returns a bag other than `d`, its API operation has succeeded (the delete
handler never writes the bag). -/
theorem handlers_propagate_error {σ : Type}
    (buildForemanObject : ResourceData → ForemanObject) (client : Client σ)
    (d : ResourceData) (s : σ) (p : ForemanOverrideValue)
    (hb : buildForemanOverrideValue buildForemanObject d = some p) :
    (∀ e s1, CreateOverrideValue client p s = (Except.error e, s1) →
      resourceForemanOverrideValueCreate buildForemanObject client d s
        = (Outcome.returned (some e) d, s1)) ∧
    (∀ e s1, ReadOverrideValue client p p.Id s = (Except.error e, s1) →
      resourceForemanOverrideValueRead buildForemanObject client d s
        = (Outcome.returned (some e) d, s1)) ∧
    (∀ e s1, UpdateOverrideValue client p p.Id s = (Except.error e, s1) →
      resourceForemanOverrideValueUpdate buildForemanObject client d s
        = (Outcome.returned (some e) d, s1)) ∧
    (∀ e s1, DeleteOverrideValue client p p.Id s = (some e, s1) →
      resourceForemanOverrideValueDelete buildForemanObject client d s
        = (Outcome.returned (some e) d, s1)) ∧
    (∀ e s1, QueryOverrideValue client p s = (Except.error e, s1) →
      dataSourceForemanOverrideValueRead buildForemanObject client d s
        = (Outcome.returned (some e) d, s1)) ∧
    ((resourceForemanOverrideValueCreate buildForemanObject client d s).1.bag? = some d ∨
      ∃ r, (CreateOverrideValue client p s).1 = Except.ok r) ∧
    ((resourceForemanOverrideValueRead buildForemanObject client d s).1.bag? = some d ∨
      ∃ r, (ReadOverrideValue client p p.Id s).1 = Except.ok r) ∧
    ((resourceForemanOverrideValueUpdate buildForemanObject client d s).1.bag? = some d ∨
      ∃ r, (UpdateOverrideValue client p p.Id s).1 = Except.ok r) ∧
    (resourceForemanOverrideValueDelete buildForemanObject client d s).1.bag? = some d ∧
    ((dataSourceForemanOverrideValueRead buildForemanObject client d s).1.bag? = some d ∨
      ∃ r, (QueryOverrideValue client p s).1 = Except.ok r) := by
  refine ⟨?_, ?_, ?_, ?_, ?_, ?_, ?_, ?_, ?_, ?_⟩
  · intro e s1 h
    simp [resourceForemanOverrideValueCreate, hb, h]
  · intro e s1 h
    simp [resourceForemanOverrideValueRead, hb, h]
  · intro e s1 h
    simp [resourceForemanOverrideValueUpdate, hb, h]
  · intro e s1 h
    simp [resourceForemanOverrideValueDelete, hb, h]
  · intro e s1 h
    simp [dataSourceForemanOverrideValueRead, hb, h]
  · rcases h : CreateOverrideValue client p s with ⟨r | r, s1⟩
    · left; simp [resourceForemanOverrideValueCreate, hb, h, Outcome.bag?]
    · right; exact ⟨r, rfl⟩
  · rcases h : ReadOverrideValue client p p.Id s with ⟨r | r, s1⟩
    · left; simp [resourceForemanOverrideValueRead, hb, h, Outcome.bag?]
    · right; exact ⟨r, rfl⟩
  · rcases h : UpdateOverrideValue client p p.Id s with ⟨r | r, s1⟩
    · left; simp [resourceForemanOverrideValueUpdate, hb, h, Outcome.bag?]
    · right; exact ⟨r, rfl⟩
  · simp [resourceForemanOverrideValueDelete, hb, Outcome.bag?]
  · rcases h : QueryOverrideValue client p s with ⟨r | r, s1⟩
    · left; simp [dataSourceForemanOverrideValueRead, hb, h, Outcome.bag?]
    · right; exact ⟨r, rfl⟩

/-- Witness for claim C8: the bag of the example against a remote that answers
every request with `503 Service Unavailable`; each of the five handlers
returns that error and the bag is the one given. -/
theorem handlers_propagate_error_witness :
    (resourceForemanOverrideValueCreate objectFromBag (scriptedClient unavailable)
        redHatBag []).1.err? = some (some ⟨"503 Service Unavailable"⟩) ∧
    (resourceForemanOverrideValueRead objectFromBag (scriptedClient unavailable)
        redHatBag []).1.err? = some (some ⟨"503 Service Unavailable"⟩) ∧
    (resourceForemanOverrideValueUpdate objectFromBag (scriptedClient unavailable)
        redHatBag []).1.err? = some (some ⟨"503 Service Unavailable"⟩) ∧
    (resourceForemanOverrideValueDelete objectFromBag (scriptedClient unavailable)
        redHatBag []).1.err? = some (some ⟨"503 Service Unavailable"⟩) ∧
    (dataSourceForemanOverrideValueRead objectFromBag (scriptedClient unavailable)
        redHatBag []).1.err? = some (some ⟨"503 Service Unavailable"⟩) ∧
    (resourceForemanOverrideValueCreate objectFromBag (scriptedClient unavailable)
        redHatBag []).1.bag? = some redHatBag :=
  have h := handlers_propagate_error objectFromBag (scriptedClient unavailable) redHatBag []
    { Id := 12, Match := "os=RedHat", Value := "true", Omit := true } rfl
  ⟨congrArg (fun r => r.1.err?) (h.1 _ _ rfl),
   congrArg (fun r => r.1.err?) (h.2.1 _ _ rfl),
   congrArg (fun r => r.1.err?) (h.2.2.1 _ _ rfl),
   congrArg (fun r => r.1.err?) (h.2.2.2.1 _ _ rfl),
   congrArg (fun r => r.1.err?) (h.2.2.2.2.1 _ _ rfl),
   congrArg (fun r => r.1.bag?) (h.1 _ _ rfl)⟩

/-- Claim C9 on the code: `ReadParameter` decodes the remote reply and then
returns the model it was given with only the identity taken from the reply.
Reading parameter 5 of host 1, the remote reports the description `remote`,
the default value `b` and its own override values, and the call returns the
description `local`, the default value `a` and the override values of the
model passed in; for every client, model and ID a successful call returns the
model passed in, up to the identity. -/
theorem readParameter_returns_given_model :
    (ReadParameter (scriptedClient { parameter := Except.ok remoteParameter })
        localParameter 5 []).1
      = Except.ok { localParameter with Id := 5 } ∧
    ((ReadParameter (scriptedClient { parameter := Except.ok remoteParameter })
        localParameter 5 []).1.toOption.map
        fun r => (r.Description, r.DefaultValue, r.Override, r.OverrideValues))
      = some ("local", "a", false, [{ Match := "os=RedHat", Value := "true" }]) ∧
    (remoteParameter.Description, remoteParameter.DefaultValue, remoteParameter.Override,
        remoteParameter.OverrideValues)
      = ("remote", "b", true, [{ Match := "fqdn=web01", Value := "8080" }]) ∧
    ∀ (σ : Type) (c : Client σ) (d : ForemanSmartClassParameter) (id : Int) (s : σ),
      (ReadParameter c d id s).1.toOption.map (fun r => { r with Id := d.Id })
        = (ReadParameter c d id s).1.toOption.map (fun _ => d) := by
  refine ⟨rfl, by decide, by decide, fun σ c d id s => ?_⟩
  unfold ReadParameter
  cases ReadParameterRequest c d id with
  | error e => rfl
  | ok req =>
    simp only
    rcases c.SendAndParseParameter req s with ⟨r | r, s1⟩
    · rfl
    · rfl

/-- Claim C10 on the code: `UpdateParameter` neither deletes nor re-creates
override values.  For every remote reply, model and ID the remote receives
exactly one request from it, a PUT (no DELETE, no POST); updating parameter 5
of host 1 that request goes to `/hosts/1/parameters/5`.  For every client the
remote state after the call is the state that one exchange leaves, or the
prior state when no request could be built. -/
theorem updateParameter_single_put :
    ((UpdateParameter (scriptedClient { parameter := Except.ok remoteParameter })
        localParameter 5 []).2.map fun r => (r.Method, r.Endpoint))
      = [("PUT", "/hosts/1/parameters/5")] ∧
    (∀ (sc : Script) (d : ForemanSmartClassParameter) (id : Int),
      ((UpdateParameter (scriptedClient sc) d id []).2.map fun r => (r.Method, r.Body.map JSONValue.keys))
        = [("PUT", some d.marshal.keys)]) ∧
    ∀ (σ : Type) (c : Client σ) (d : ForemanSmartClassParameter) (id : Int) (s : σ),
      (UpdateParameter c d id s).2
        = match UpdateParameterRequest c d id with
          | Except.error _ => s
          | Except.ok req => (c.SendAndParseParameter req s).2 := by
  refine ⟨by decide, fun sc d id => ?_, fun σ c d id s => ?_⟩
  · simp only [UpdateParameter, UpdateParameterRequest, Client.NewRequest, scriptedClient]
    cases sc.parameter <;> rfl
  · unfold UpdateParameter
    cases UpdateParameterRequest c d id with
    | error e => rfl
    | ok req =>
      simp only
      rcases c.SendAndParseParameter req s with ⟨r | r, s1⟩
      · rfl
      · rfl

/-- Claim C11 on the code: every response `QueryOverrideValue` returns without
error lists boxed `ForemanOverrideValue`s only, and on such a response the
handler never takes its `unexpected type` branch; but the count check reads
`Subtotal` alone, so a response that passes it may list nothing.  Against a
remote that reports one match and lists none, `QueryOverrideValue` returns
without error the count 1 with an empty result list, and
`dataSourceForemanOverrideValueRead` indexes `Results[0]` of that empty list and
panics. -/
theorem dataSourceRead_indexes_empty_results :
    ((QueryOverrideValue (scriptedClient countWithoutResults) { Name := "web01" } []).1.toOption.map
        fun q => (q.Subtotal, q.Results.length))
      = some (1, 0) ∧
    (dataSourceForemanOverrideValueRead objectFromBag (scriptedClient countWithoutResults)
        web01Bag []).1.isPanic = true ∧
    (∀ (σ : Type) (c : Client σ) (t : ForemanOverrideValue) (s : σ),
      match (QueryOverrideValue c t s).1 with
      | Except.ok q => ∃ results, q.Results = List.map AnyResult.overrideValue results
      | Except.error _ => True) ∧
    ∀ (d : ResourceData) (n : Int) (results : List ForemanOverrideValue),
      dataSourceForemanOverrideValueReadResult d
          { Subtotal := n, Results := results.map AnyResult.overrideValue }
        = if n = 0 then
            Outcome.returned (some ⟨"Data source override_value returned no results"⟩) d
          else if n > 1 then
            Outcome.returned (some ⟨"Data source override_value returned more than 1 result"⟩) d
          else
            match results with
            | [] => Outcome.panicked
            | v :: _ => Outcome.returned none (setResourceDataFromForemanOverrideValue d v) := by
  refine ⟨by decide, by decide, fun σ c t s => ?_, fun d n results => ?_⟩
  · unfold QueryOverrideValue
    cases QueryOverrideValueRequest c t with
    | error e => trivial
    | ok req =>
      simp only
      rcases c.SendAndParseQuery req s with ⟨e | q, s1⟩
      · trivial
      · simp only
        cases c.unmarshalOverrideValues
            (JSONValue.array (List.map AnyResult.marshal q.Results)) with
        | error e => trivial
        | ok results => exact ⟨results, rfl⟩
  · unfold dataSourceForemanOverrideValueReadResult
    cases results with
    | nil => rfl
    | cons v rest => rfl

end Foreman
